import Mathlib

/-!
Verification of the xenstore client library (wire codec, client handle and
tokio multiplexer) against its natural-language specification.

The Rust sources are shallowly embedded: byte buffers become `List Nat`
(each element a byte value `< 256`), machine `u32` values become `Nat`
with `% 2^32` where the cast matters, fallible functions return `Except`,
and the multiplexer's mutable state becomes explicit state passing.
The host is assumed little-endian, so the "native byte order" u32
encoding of the header is modelled as little-endian; both encoder and
decoder use the same order, exactly as in the source.
-/

namespace Xenstore

/-- Byte strings: each element is a byte value. -/
abbrev Bytes := List Nat

deriving instance DecidableEq for Except

/-! ## Wire codec — src/wire.rs -/

/-- `XsMessageType` enumeration (wire.rs lines 26-50), in declaration order.
The Rust enum declares no explicit discriminants. -/
inductive XsMessageType where
  | Control
  | Directory
  | Read
  | GetPerms
  | Watch
  | Unwatch
  | TransactionStart
  | TransactionEnd
  | Introduce
  | Release
  | GetDomainPath
  | Write
  | Mkdir
  | Rm
  | SetPerms
  | WatchEvent
  | Error
  | IsDomainIntroduced
  | Resume
  | SetTarget
  | ResetWatches
  | DirectoryPart
deriving DecidableEq

/-- The Rust `as u32` cast on the fieldless enum: since `XsMessageType`
declares no explicit discriminants, the cast yields the positional
discriminant (0 for the first variant, +1 for each following one).
This is what `write_to` (wire.rs line 199) and `write_message_async`
(wire_async.rs line 72) actually write. -/
def msgTypeCast : XsMessageType → Nat
  | .Control => 0
  | .Directory => 1
  | .Read => 2
  | .GetPerms => 3
  | .Watch => 4
  | .Unwatch => 5
  | .TransactionStart => 6
  | .TransactionEnd => 7
  | .Introduce => 8
  | .Release => 9
  | .GetDomainPath => 10
  | .Write => 11
  | .Mkdir => 12
  | .Rm => 13
  | .SetPerms => 14
  | .WatchEvent => 15
  | .Error => 16
  | .IsDomainIntroduced => 17
  | .Resume => 18
  | .SetTarget => 19
  | .ResetWatches => 20
  | .DirectoryPart => 21

/-- The explicit `impl From<XsMessageType> for u32` table (wire.rs lines
52-79): identical to the cast up to `SetTarget`, but `ResetWatches ↦ 21`
and `DirectoryPart ↦ 22`.  `write_to` does NOT use this table. -/
def msgTypeIntoU32 : XsMessageType → Nat
  | .ResetWatches => 21
  | .DirectoryPart => 22
  | t => msgTypeCast t

/-- `impl TryFrom<u32> for XsMessageType` (wire.rs lines 81-111):
tags 0..19 and 21..22 are known, everything else (including 20) is
`UnknownMessageType`. -/
def msgTypeOfU32 : Nat → Option XsMessageType
  | 0 => some .Control
  | 1 => some .Directory
  | 2 => some .Read
  | 3 => some .GetPerms
  | 4 => some .Watch
  | 5 => some .Unwatch
  | 6 => some .TransactionStart
  | 7 => some .TransactionEnd
  | 8 => some .Introduce
  | 9 => some .Release
  | 10 => some .GetDomainPath
  | 11 => some .Write
  | 12 => some .Mkdir
  | 13 => some .Rm
  | 14 => some .SetPerms
  | 15 => some .WatchEvent
  | 16 => some .Error
  | 17 => some .IsDomainIntroduced
  | 18 => some .Resume
  | 19 => some .SetTarget
  | 21 => some .ResetWatches
  | 22 => some .DirectoryPart
  | _ => none

/-- `XsMessage` (wire.rs lines 113-118): `request_id` is a `u32`,
modelled as a `Nat` (kept `< 2^32` by the operations). -/
structure XsMessage where
  msg_type : XsMessageType
  request_id : Nat
  payload : Bytes
deriving DecidableEq

/-- The subset of `std::io::ErrorKind` this library produces. -/
inductive ErrorKind where
  | invalidInput
  | permissionDenied
  | alreadyExists
  | notFound
  | outOfMemory
  | unsupported
  | wouldBlock
  | addrInUse
  | invalidData
  | other
  | unexpectedEof
  | brokenPipe
deriving DecidableEq

def XENSTORE_PAYLOAD_MAX : Nat := 4096

/-- `u32::to_ne_bytes` on a little-endian host: four bytes, least
significant first (`write_u32`, wire.rs lines 126-128). -/
def u32Bytes (n : Nat) : Bytes :=
  [n % 256, n / 256 % 256, n / 2 ^ 16 % 256, n / 2 ^ 24 % 256]

/-- `u32::from_ne_bytes` on the same host (`read_u32`, wire.rs lines
120-124); evaluates any 4-byte chunk little-endian first. -/
def bytesU32 (b : Bytes) : Nat :=
  (b.take 4).foldr (fun x acc => x % 256 + 256 * acc) 0

/-- `XsMessage::write_to` (wire.rs lines 176-216): reject payloads over
4096 bytes with `InvalidData`, else emit the 16-byte header
(type via the `as u32` cast, req_id, tx_id = 0, len) followed by the
payload. -/
def write_to (m : XsMessage) : Except ErrorKind Bytes :=
  if m.payload.length > XENSTORE_PAYLOAD_MAX then
    .error .invalidData
  else
    .ok (u32Bytes (msgTypeCast m.msg_type) ++ u32Bytes (m.request_id % 2 ^ 32)
      ++ u32Bytes 0 ++ u32Bytes (m.payload.length % 2 ^ 32) ++ m.payload)

/-- `XsMessage::read_from` (wire.rs lines 218-240): read a 16-byte header
(failing with `UnexpectedEof` if the source is short), read exactly `len`
payload bytes (again `UnexpectedEof` if short), then convert the tag,
failing with `Unsupported` on an unknown tag.  Returns the message and
the unread remainder of the source. -/
def read_from (input : Bytes) : Except ErrorKind (XsMessage × Bytes) :=
  if input.length < 16 then .error .unexpectedEof
  else
    let msg_type := bytesU32 input
    let request_id := bytesU32 (input.drop 4)
    let len := bytesU32 (input.drop 12)
    let rest := input.drop 16
    if rest.length < len then .error .unexpectedEof
    else
      match msgTypeOfU32 msg_type with
      | none => .error .unsupported
      | some t => .ok (⟨t, request_id, rest.take len⟩, rest.drop len)

/-- `XsMessage::read_message_async` (wire_async.rs lines 22-44): the async
decoder, textually a second copy of `read_from` with the same header
parsing, payload read of exactly `len` bytes, and tag conversion. -/
def read_message_async (input : Bytes) : Except ErrorKind (XsMessage × Bytes) :=
  if input.length < 16 then .error .unexpectedEof
  else
    let msg_type := bytesU32 input
    let request_id := bytesU32 (input.drop 4)
    let len := bytesU32 (input.drop 12)
    let rest := input.drop 16
    if rest.length < len then .error .unexpectedEof
    else
      match msgTypeOfU32 msg_type with
      | none => .error .unsupported
      | some t => .ok (⟨t, request_id, rest.take len⟩, rest.drop len)

/-! ## Payload string parsing — src/wire.rs lines 130-142 and 242-285 -/

/-- A UTF-8 continuation byte (`0x80..=0xBF`). -/
def isUtf8Cont (b : Nat) : Bool :=
  0x80 ≤ b && b ≤ 0xBF

/-- The UTF-8 validity check performed by Rust's `str::from_utf8`:
well-formed sequences only, rejecting overlong encodings, surrogates
and code points above `U+10FFFF`. -/
def isValidUtf8 : Bytes → Bool
  | [] => true
  | b :: rest =>
    if b ≤ 0x7F then isValidUtf8 rest
    else
      match rest with
      | [] => false
      | c1 :: rest1 =>
        if 0xC2 ≤ b && b ≤ 0xDF then isUtf8Cont c1 && isValidUtf8 rest1
        else
          match rest1 with
          | [] => false
          | c2 :: rest2 =>
            if b == 0xE0 then
              (0xA0 ≤ c1 && c1 ≤ 0xBF) && isUtf8Cont c2 && isValidUtf8 rest2
            else if (0xE1 ≤ b && b ≤ 0xEC) || b == 0xEE || b == 0xEF then
              isUtf8Cont c1 && isUtf8Cont c2 && isValidUtf8 rest2
            else if b == 0xED then
              (0x80 ≤ c1 && c1 ≤ 0x9F) && isUtf8Cont c2 && isValidUtf8 rest2
            else
              match rest2 with
              | [] => false
              | c3 :: rest3 =>
                if b == 0xF0 then
                  (0x90 ≤ c1 && c1 ≤ 0xBF) && isUtf8Cont c2 && isUtf8Cont c3
                    && isValidUtf8 rest3
                else if 0xF1 ≤ b && b ≤ 0xF3 then
                  isUtf8Cont c1 && isUtf8Cont c2 && isUtf8Cont c3 && isValidUtf8 rest3
                else if b == 0xF4 then
                  (0x80 ≤ c1 && c1 ≤ 0x8F) && isUtf8Cont c2 && isUtf8Cont c3
                    && isValidUtf8 rest3
                else false

/-- `parse_nul_string` (wire.rs lines 130-142): empty buffer means "no
string"; otherwise discard one trailing NUL if present and validate
UTF-8 (a decoded string is returned as its byte sequence). -/
def parse_nul_string (buffer : Bytes) : Except Unit (Option Bytes) :=
  if buffer.isEmpty then .ok none
  else
    let b := if buffer.getLast? = some 0 then buffer.dropLast else buffer
    if isValidUtf8 b then .ok (some b) else .error ()

/-- `XsMessage::parse_payload_str` (wire.rs lines 242-244). -/
def parse_payload_str (m : XsMessage) : Except Unit (Option Bytes) :=
  parse_nul_string m.payload

/-- Rust's `slice::split_inclusive` with the NUL predicate: chunks end
just after each NUL; the final chunk may lack the NUL; an empty slice
yields no chunks. -/
def splitAfterNul : Bytes → List Bytes
  | [] => []
  | x :: xs =>
    if x = 0 then [x] :: splitAfterNul xs
    else
      match splitAfterNul xs with
      | [] => [[x]]
      | c :: cs => (x :: c) :: cs

/-- The `filter_map(.. transpose).collect::<Result<Vec, _>>()` step of
`parse_payload_list`: parse each chunk, drop `None`s (empty chunks),
abort on the first `Err`. -/
def collectChunks : List Bytes → Except Unit (List Bytes)
  | [] => .ok []
  | chunk :: rest =>
    match parse_nul_string chunk with
    | .error e => .error e
    | .ok none => collectChunks rest
    | .ok (some s) => (collectChunks rest).map (s :: ·)

/-- `XsMessage::parse_payload_list` (wire.rs lines 246-251). -/
def parse_payload_list (m : XsMessage) : Except Unit (List Bytes) :=
  collectChunks (splitAfterNul m.payload)

/-- UTF-8 bytes of an ASCII string literal. -/
def ascii (s : String) : Bytes :=
  s.data.map Char.toNat

/-- The match-arm table of `parse_error` (wire.rs lines 264-282), in
source order. -/
def parseErrorKindTable (s : Bytes) : ErrorKind :=
  if s = ascii "EINVAL" then .invalidInput
  else if s = ascii "EACCES" then .permissionDenied
  else if s = ascii "EEXIST" then .alreadyExists
  else if s = ascii "EISDIR" then .alreadyExists
  else if s = ascii "ENOENT" then .notFound
  else if s = ascii "ENOMEM" then .outOfMemory
  else if s = ascii "ENOSPC" then .outOfMemory
  else if s = ascii "EIO" then .other
  else if s = ascii "ENOTEMPTY" then .invalidInput
  else if s = ascii "ENOSYS" then .unsupported
  else if s = ascii "EROFS" then .permissionDenied
  else if s = ascii "EBUSY" then .alreadyExists
  else if s = ascii "EAGAIN" then .wouldBlock
  else if s = ascii "EISCONN" then .addrInUse
  else if s = ascii "E2BIG" then .invalidData
  else if s = ascii "EPERM" then .permissionDenied
  else .other

/-- `XsMessage::parse_error` (wire.rs lines 253-285), after its
`msg_type == Error` assertion: decode the payload as one NUL-terminated
string; on failure return an `Other`-kind error with a fixed message;
otherwise classify the string through the match table and build an
error whose message is `"XS interface error "` followed by the string. -/
def parse_error (m : XsMessage) : ErrorKind × Bytes :=
  match parse_nul_string m.payload with
  | .ok (some s) => (parseErrorKindTable s, ascii "XS interface error " ++ s)
  | _ => (.other, ascii "Got invalid error code from error payload")

/-! ## Message constructors — src/wire.rs lines 144-174 -/

/-- `XsMessage::from_string` (wire.rs lines 145-155): payload is the
string followed by one NUL. -/
def from_string (msg_type : XsMessageType) (request_id : Nat) (s : Bytes) : XsMessage :=
  ⟨msg_type, request_id, s ++ [0]⟩

/-- `XsMessage::from_string_slice` (wire.rs lines 157-174): each string
followed by one NUL, concatenated. -/
def from_string_slice (msg_type : XsMessageType) (request_id : Nat)
    (strings : List Bytes) : XsMessage :=
  ⟨msg_type, request_id, (strings.map (· ++ [0])).flatten⟩

/-! ## Client handle — src/tokio/mod.rs -/

/-- An `io::Error`: a kind plus a message (as bytes). -/
abbrev IoError := ErrorKind × Bytes

/-- The response dispatch of `XsTokio::transmit_request`
(tokio/mod.rs lines 72-80): a response whose kind equals the request's
kind is returned; an `Error`-kind response is translated through
`parse_error`; anything else is an `InvalidData` failure. -/
def transmit_dispatch (req_msg_type : XsMessageType) (response : XsMessage) :
    Except IoError XsMessage :=
  if response.msg_type = req_msg_type then .ok response
  else if response.msg_type = .Error then .error (parse_error response)
  else .error (.invalidData, ascii "Got unrelated response")

/-- `XsTokio::directory` (tokio/mod.rs lines 85-97), given the response
the multiplexer delivered: dispatch, then parse the payload as a string
list (UTF-8 failure is `InvalidData`). -/
def directory_op (response : XsMessage) : Except IoError (List Bytes) :=
  match transmit_dispatch .Directory response with
  | .error e => .error e
  | .ok r =>
    match parse_payload_list r with
    | .ok l => .ok l
    | .error _ => .error (.invalidData, ascii "invalid utf-8 sequence")

/-- `XsTokio::read` (tokio/mod.rs lines 99-111): dispatch, then parse the
payload as one string, an empty payload giving the empty string
(`unwrap_or_default`). -/
def read_op (response : XsMessage) : Except IoError Bytes :=
  match transmit_dispatch .Read response with
  | .error e => .error e
  | .ok r =>
    match parse_payload_str r with
    | .ok (some s) => .ok s
    | .ok none => .ok []
    | .error _ => .error (.invalidData, ascii "invalid utf-8 sequence")

/-- `XsTokio::write` (tokio/mod.rs lines 113-122): dispatch only, payload
discarded. -/
def write_op (response : XsMessage) : Except IoError Unit :=
  match transmit_dispatch .Write response with
  | .error e => .error e
  | .ok _ => .ok ()

/-- `XsTokio::rm` (tokio/mod.rs lines 124-129): dispatch only. -/
def rm_op (response : XsMessage) : Except IoError Unit :=
  match transmit_dispatch .Rm response with
  | .error e => .error e
  | .ok _ => .ok ()

/-! ## Multiplexer — src/tokio/interface.rs -/

/-- A 128-bit v4 UUID, modelled as a natural number. -/
abbrev Uuid := Nat

/-- Maximum number of pending requests (interface.rs line 14). -/
def MAX_REQUEST_COUNT : Nat := 32

/-- `WatchSubscriberInfo` (interface.rs lines 44-48): the subscriber's
event channel (by identifier) and the watch path, retained for UNWATCH. -/
structure WatchSubscriberInfo where
  channel : Nat
  path : Bytes
deriving DecidableEq

/-- `XsTokioTask` (interface.rs lines 34-42): what a pending slot holds. -/
inductive XsTokioTask where
  | Request (response_sender : Nat)
  | WatchSubscribe (subscriber_info : WatchSubscriberInfo) (result_channel : Nat) (token : Uuid)
  | WatchUnsubscribe (token : Uuid)
deriving DecidableEq

/-- `XsTokioMessage` (interface.rs lines 24-32), the commands client
handles submit.  `WatchSubscribe` additionally carries the outcomes the
`Uuid::new_v4` random oracle will produce while the command is
processed. -/
inductive XsTokioMessage where
  | Request (request : XsMessage) (response_sender : Nat)
  | WatchSubscribe (path : Bytes) (event_sender : Nat) (result_channel : Nat) (gen : List Uuid)
  | WatchUnsubscribe (token : Uuid)
deriving DecidableEq

/-- `XsTokioState` (interface.rs lines 50-58): the pending-task slots,
the watch table (a `HashMap`, modelled as an association list with
unique keys) and the occupied-slot counter. -/
structure XsTokioState where
  pending_tasks : List (Option XsTokioTask)
  watch_subscribers : List (Uuid × WatchSubscriberInfo)
  task_count : Nat
deriving DecidableEq

/-- `HashMap::get` on the association-list model. -/
def hmGet (m : List (Uuid × WatchSubscriberInfo)) (k : Uuid) : Option WatchSubscriberInfo :=
  (m.find? (fun p => p.1 == k)).map (·.2)

/-- `HashMap::insert` on the association-list model: replace an existing
binding, else append. -/
def hmInsert (m : List (Uuid × WatchSubscriberInfo)) (k : Uuid) (v : WatchSubscriberInfo) :
    List (Uuid × WatchSubscriberInfo) :=
  if m.any (fun p => p.1 == k) then m.map (fun p => if p.1 == k then (k, v) else p)
  else m ++ [(k, v)]

/-- `HashMap::remove` on the association-list model. -/
def hmRemove (m : List (Uuid × WatchSubscriberInfo)) (k : Uuid) :
    List (Uuid × WatchSubscriberInfo) :=
  m.filter (fun p => !(p.1 == k))

/-- `Uuid::to_string`: an injective textual rendering of the token
(modelled as the decimal numeral). -/
def uuidToString (u : Uuid) : Bytes :=
  ascii (toString u)

/-- `Uuid::try_parse`: inverse of the textual rendering, failing on
anything that is not a rendered token. -/
def uuidTryParse (s : Bytes) : Option Uuid :=
  if s ≠ [] && s.all (fun c => 48 ≤ c && c ≤ 57) then
    some (s.foldl (fun a c => 10 * a + (c - 48)) 0)
  else none

/-- `find_suitable_token` (interface.rs lines 60-69): draw tokens from
the random oracle until one is absent from the watch table.  The Rust
loop can only fail to return by spinning forever; the model returns
`none` when the finite oracle is exhausted. -/
def find_suitable_token (gen : List Uuid) (watch_subscribers : List (Uuid × WatchSubscriberInfo)) :
    Option Uuid :=
  match gen with
  | [] => none
  | u :: rest =>
    if hmGet watch_subscribers u = none then some u
    else find_suitable_token rest watch_subscribers

/-- The slot search of `process_message` (interface.rs lines 74-82):
index of the first free slot. -/
def findFreeSlot : List (Option XsTokioTask) → Option Nat
  | [] => none
  | none :: _ => some 0
  | some _ :: rest => (findFreeSlot rest).map (· + 1)

/-- `XsTokioState::process_message` (interface.rs lines 72-141).  Returns
the new state and the wire messages sent on the request channel, or an
error (in which case the state is unchanged — every `bail!`/`?` in the
source fires before the slot and counter updates). -/
def processMessage (s : XsTokioState) (message : XsTokioMessage) :
    Except String (XsTokioState × List XsMessage) :=
  match findFreeSlot s.pending_tasks with
  | none => .error "No available slot"
  | some req_id =>
    match message with
    | .Request request response_sender =>
      .ok ({ s with
               pending_tasks := s.pending_tasks.set req_id (some (.Request response_sender)),
               task_count := s.task_count + 1 },
           [{ request with request_id := req_id }])
    | .WatchSubscribe path event_sender result_channel gen =>
      match find_suitable_token gen s.watch_subscribers with
      | none => .error "no fresh token"
      | some token =>
        .ok ({ s with
                 pending_tasks := s.pending_tasks.set req_id
                   (some (.WatchSubscribe ⟨event_sender, path⟩ result_channel token)),
                 task_count := s.task_count + 1 },
             [from_string_slice .Watch req_id [path, uuidToString token]])
    | .WatchUnsubscribe token =>
      match hmGet s.watch_subscribers token with
      | none => .error "Attempting unwatch without watch."
      | some info =>
        .ok ({ s with
                 pending_tasks := s.pending_tasks.set req_id
                   (some (.WatchUnsubscribe token)),
                 task_count := s.task_count + 1 },
             [from_string_slice .Unwatch req_id [info.path, uuidToString token]])

/-- What the multiplexer delivers to waiting callers or subscribers. -/
inductive Delivery where
  | response (sender : Nat) (msg : XsMessage)
  | subscribeOk (result_channel : Nat) (token : Uuid)
  | subscribeErr (result_channel : Nat) (e : IoError)
  | watchEvent (channel : Nat) (value : Bytes)
deriving DecidableEq

/-- `XsTokioState::process_watch_entry` (interface.rs lines 218-237):
parse the event payload as `{path, token}`, look the token up, forward
the path to the subscriber; a dead subscriber channel (`alive` false) is
removed, an unknown token is logged and dropped. -/
def processWatchEntry (alive : Nat → Bool) (s : XsTokioState) (msg : XsMessage) :
    XsTokioState × List Delivery × Except String Unit :=
  match parse_payload_list msg with
  | .error _ => (s, [], .error "invalid utf-8 sequence")
  | .ok l =>
    match l with
    | [value, token] =>
      match uuidTryParse token with
      | none => (s, [], .error "Got non-UUID token")
      | some uuid =>
        match hmGet s.watch_subscribers uuid with
        | some subscriber =>
          if alive subscriber.channel then
            (s, [.watchEvent subscriber.channel value], .ok ())
          else
            ({ s with watch_subscribers := hmRemove s.watch_subscribers uuid }, [], .ok ())
        | none => (s, [], .ok ())
    | _ => (s, [], .error "Invalid watch event payload received")

/-- `XsTokioState::process_response` (interface.rs lines 143-216):
watch events go to `process_watch_entry`; every other response frees the
slot named by its request id (erroring on an invalid or empty slot, with
the state unchanged) and is dispatched on the parked task.  The returned
`Except` is the function's `anyhow::Result`: `run` only logs it. -/
def processResponse (alive : Nat → Bool) (s : XsTokioState) (response : XsMessage) :
    XsTokioState × List Delivery × Except String Unit :=
  if response.msg_type = .WatchEvent then processWatchEntry alive s response
  else
    match s.pending_tasks.get? response.request_id with
    | none => (s, [], .error "Invalid req_id received")
    | some none => (s, [], .error "No related request to this req_id")
    | some (some task) =>
      let s1 : XsTokioState :=
        { s with pending_tasks := s.pending_tasks.set response.request_id none,
                 task_count := s.task_count - 1 }
      match task with
      | .Request sender => (s1, [.response sender response], .ok ())
      | .WatchSubscribe subscriber_info result_channel token =>
        match response.msg_type with
        | .Watch =>
          ({ s1 with watch_subscribers := hmInsert s1.watch_subscribers token subscriber_info },
           [.subscribeOk result_channel token], .ok ())
        | .Error =>
          (s1, [.subscribeErr result_channel (parse_error response)], .ok ())
        | _ =>
          (s1, [.subscribeErr result_channel (.invalidData, ascii "Got unexpected response")],
           .error "Got invalid response to WATCH command")
      | .WatchUnsubscribe token =>
        match response.msg_type with
        | .Unwatch =>
          ({ s1 with watch_subscribers := hmRemove s1.watch_subscribers token }, [], .ok ())
        | .Error => (s1, [], .error "Unwatch failure")
        | _ => (s1, [], .error "Got invalid response to WATCH command")

/-- The multiplexer's initial state (interface.rs lines 308-315). -/
def initState : XsTokioState :=
  ⟨List.replicate MAX_REQUEST_COUNT none, [], 0⟩

/-- States reachable from the initial state by any sequence of
`process_message` and `process_response` steps (a failed
`process_message` leaves the state unchanged). -/
inductive Reachable : XsTokioState → Prop where
  | init : Reachable initState
  | message (s : XsTokioState) (m : XsTokioMessage) (s' : XsTokioState) (out : List XsMessage) :
      Reachable s → processMessage s m = .ok (s', out) → Reachable s'
  | response (alive : Nat → Bool) (s : XsTokioState) (r : XsMessage) :
      Reachable s → Reachable (processResponse alive s r).1

/-- A configuration of the main loop: the multiplexer state, the queue of
the command channel from client handles (the handle in tokio/mod.rs
line 38 holds an `mpsc::UnboundedSender` for it), and the response
channel from the reader task. -/
structure MuxConfig where
  state : XsTokioState
  cmd_queue : List XsTokioMessage
  resp_queue : List XsMessage

/-- One iteration of `XsTokioState::run` (interface.rs lines 239-270):
with all 32 slots busy only the response channel is polled; otherwise a
`select!` nondeterministically takes a response or a command.  A failure
of either processing function is logged and the loop continues. -/
inductive RunStep (alive : Nat → Bool) : MuxConfig → MuxConfig → Prop where
  | response (s : XsTokioState) (r : XsMessage) (rs : List XsMessage)
      (cmds : List XsTokioMessage) :
      RunStep alive ⟨s, cmds, r :: rs⟩ ⟨(processResponse alive s r).1, cmds, rs⟩
  | command (s : XsTokioState) (m : XsTokioMessage) (ms : List XsTokioMessage)
      (resps : List XsMessage) (s' : XsTokioState) (out : List XsMessage) :
      s.task_count ≠ MAX_REQUEST_COUNT →
      processMessage s m = .ok (s', out) →
      RunStep alive ⟨s, m :: ms, resps⟩ ⟨s', ms, resps⟩
  | commandFail (s : XsTokioState) (m : XsTokioMessage) (ms : List XsTokioMessage)
      (resps : List XsMessage) (e : String) :
      s.task_count ≠ MAX_REQUEST_COUNT →
      processMessage s m = .error e →
      RunStep alive ⟨s, m :: ms, resps⟩ ⟨s, ms, resps⟩

/-- What a client handle submitting a command could conceivably observe:
its command enqueued with the call returning at once, the caller parked
awaiting channel capacity, or a send error. -/
inductive SubmitOutcome where
  | queued
  | suspended
  | failed
deriving DecidableEq

/-- The client handle's submit, `mpsc::UnboundedSender::send` (the handle
field at tokio/mod.rs line 38; call sites at mod.rs lines 61-66, 162-168
and 151-153): a synchronous send with no `.await` — while the
multiplexer's receiver is open the command is enqueued immediately and
the call returns `Ok`; it fails only once the receiver is gone
(multiplexer dead).  It never suspends the caller. -/
def unboundedSend (receiverOpen : Bool) (q : List XsTokioMessage) (c : XsTokioMessage) :
    List XsTokioMessage × SubmitOutcome :=
  if receiverOpen then (q ++ [c], .queued) else (q, .failed)

/-- `XsTokioWatch` (tokio/mod.rs lines 133-137), the watch stream handed
to a subscriber. -/
structure XsTokioWatch where
  event_receiver : Nat
  token : Uuid

/-- `impl Drop for XsTokioWatch` (tokio/mod.rs lines 147-155): enqueue
exactly one `WatchUnsubscribe` command carrying the subscription's
token, ignoring any send failure. -/
def dropWatch (w : XsTokioWatch) : List XsTokioMessage :=
  [.WatchUnsubscribe w.token]

/-- Number of occupied pending-task slots. -/
def countOccupied (l : List (Option XsTokioTask)) : Nat :=
  l.countP (·.isSome)

/-- The §4.1 error table exactly as the specification states it, for
comparison with `parse_error` (which is translated from the source). -/
def specErrorKind (s : Bytes) : ErrorKind :=
  if s = ascii "EINVAL" ∨ s = ascii "ENOTEMPTY" then .invalidInput
  else if s = ascii "EACCES" ∨ s = ascii "EPERM" ∨ s = ascii "EROFS" then .permissionDenied
  else if s = ascii "EEXIST" ∨ s = ascii "EISDIR" ∨ s = ascii "EBUSY" then .alreadyExists
  else if s = ascii "ENOENT" then .notFound
  else if s = ascii "ENOMEM" ∨ s = ascii "ENOSPC" then .outOfMemory
  else if s = ascii "ENOSYS" then .unsupported
  else if s = ascii "EAGAIN" then .wouldBlock
  else if s = ascii "EISCONN" then .addrInUse
  else if s = ascii "E2BIG" then .invalidData
  else .other

/-- The payload the claim constructs: each string followed by a NUL. -/
def concatNul (ss : List Bytes) : Bytes :=
  (ss.map (· ++ [0])).flatten

/-- A plain Read request command, used to drive the slot table in
concrete scenarios. -/
def reqCmd : XsTokioMessage := .Request ⟨.Read, 0, [0]⟩ 0

/-- The multiplexer state after `k` plain requests have been parked
(slots `0..k-1` occupied). -/
def reqState (k : Nat) : XsTokioState :=
  ⟨(List.range MAX_REQUEST_COUNT).map (fun i => if i < k then some (.Request 0) else none),
   [], k⟩

/-! Concrete watch-lifecycle scenario: one subscription on path `/n`
with token 5, later unsubscribed. -/

def c6Path : Bytes := ascii "/n"

def c6S1 : XsTokioState :=
  ⟨(List.replicate MAX_REQUEST_COUNT (none : Option XsTokioTask)).set 0
      (some (.WatchSubscribe ⟨9, c6Path⟩ 7 5)), [], 1⟩

def c6S3 : XsTokioState :=
  ⟨(List.replicate MAX_REQUEST_COUNT (none : Option XsTokioTask)).set 0
      (some (.WatchUnsubscribe 5)), [(5, ⟨9, c6Path⟩)], 1⟩

def c6S4 : XsTokioState :=
  ⟨List.replicate MAX_REQUEST_COUNT none, [(5, ⟨9, c6Path⟩)], 0⟩

def c6Err : XsMessage := ⟨.Error, 0, ascii "EINVAL" ++ [0]⟩

def c6R2 : XsMessage := ⟨.Read, 5, []⟩

/-! Concrete double-subscription scenario: two concurrent `WatchSubscribe`
commands for which the random oracle draws the same token 11. -/

def c8S1 : XsTokioState :=
  ⟨(List.replicate MAX_REQUEST_COUNT (none : Option XsTokioTask)).set 0
      (some (.WatchSubscribe ⟨2, ascii "/a"⟩ 3 11)), [], 1⟩

def c8S2 : XsTokioState :=
  ⟨((List.replicate MAX_REQUEST_COUNT (none : Option XsTokioTask)).set 0
      (some (.WatchSubscribe ⟨2, ascii "/a"⟩ 3 11))).set 1
      (some (.WatchSubscribe ⟨4, ascii "/b"⟩ 5 11)), [], 2⟩

def c8S3 : XsTokioState :=
  ⟨(List.replicate MAX_REQUEST_COUNT (none : Option XsTokioTask)).set 1
      (some (.WatchSubscribe ⟨4, ascii "/b"⟩ 5 11)), [(11, ⟨2, ascii "/a"⟩)], 1⟩

def c8S4 : XsTokioState :=
  ⟨List.replicate MAX_REQUEST_COUNT none, [(11, ⟨4, ascii "/b"⟩)], 0⟩

/-! ## Codec lemmas -/

theorem bytesU32_u32Bytes (n : Nat) (h : n < 2 ^ 32) (rest : Bytes) :
    bytesU32 (u32Bytes n ++ rest) = n := by
  simp only [bytesU32, u32Bytes, List.cons_append, List.nil_append, List.take]
  simp only [List.foldr]
  omega

theorem drop4_u32Bytes (n : Nat) (rest : Bytes) : (u32Bytes n ++ rest).drop 4 = rest := by
  simp [u32Bytes]

theorem length_u32Bytes (n : Nat) : (u32Bytes n).length = 4 := rfl

/-- `read_message_async` is the same decoding function as `read_from`. -/
theorem read_message_async_eq (input : Bytes) : read_message_async input = read_from input := rfl

theorem read_from_frame (t : XsMessageType) (tag req len : Nat) (payload extra : Bytes)
    (htag : msgTypeOfU32 tag = some t) (htag32 : tag < 2 ^ 32) (hreq : req < 2 ^ 32)
    (hlen32 : len < 2 ^ 32) (hplen : payload.length = len) :
    read_from (u32Bytes tag ++ (u32Bytes req ++ (u32Bytes 0 ++ (u32Bytes len ++ (payload ++ extra)))))
      = .ok (⟨t, req, payload⟩, extra) := by
  have e4 : (u32Bytes tag ++ (u32Bytes req ++ (u32Bytes 0 ++ (u32Bytes len ++ (payload ++ extra))))).drop 4
      = u32Bytes req ++ (u32Bytes 0 ++ (u32Bytes len ++ (payload ++ extra))) :=
    drop4_u32Bytes _ _
  have e8 := drop4_u32Bytes req (u32Bytes 0 ++ (u32Bytes len ++ (payload ++ extra)))
  have e12 := drop4_u32Bytes 0 (u32Bytes len ++ (payload ++ extra))
  have e16 := drop4_u32Bytes len (payload ++ extra)
  have hlen : (u32Bytes tag ++ (u32Bytes req ++ (u32Bytes 0 ++ (u32Bytes len ++ (payload ++ extra))))).length
      = 16 + payload.length + extra.length := by
    simp [u32Bytes]; omega
  unfold read_from
  rw [if_neg (by omega)]
  rw [show (12 : Nat) = 4 + (4 + 4) by norm_num, ← List.drop_drop, ← List.drop_drop]
  rw [show (16 : Nat) = 4 + (4 + (4 + 4)) by norm_num, ← List.drop_drop, ← List.drop_drop,
    ← List.drop_drop]
  rw [e4, e8, e12, e16]
  rw [bytesU32_u32Bytes tag htag32, bytesU32_u32Bytes len hlen32,
    bytesU32_u32Bytes req hreq]
  rw [if_neg (by simp [hplen])]
  rw [htag, List.take_left' hplen, List.drop_left' hplen]

/-- C10: decoding does not enforce the 4096-byte payload limit.  For any
well-formed frame with a known tag and `len > 4096`, both decoders read
exactly `len` payload bytes and succeed; the limit is enforced on encode
only. -/
theorem c10_decode_ignores_payload_limit (t : XsMessageType) (tag req len : Nat)
    (payload extra : Bytes)
    (htag : msgTypeOfU32 tag = some t) (htag32 : tag < 2 ^ 32) (hreq : req < 2 ^ 32)
    (hlen32 : len < 2 ^ 32) (hplen : payload.length = len) (hbig : 4096 < len) :
    read_from (u32Bytes tag ++ (u32Bytes req ++ (u32Bytes 0 ++ (u32Bytes len ++ (payload ++ extra)))))
      = .ok (⟨t, req, payload⟩, extra) ∧
    read_message_async (u32Bytes tag ++ (u32Bytes req ++ (u32Bytes 0 ++ (u32Bytes len ++ (payload ++ extra)))))
      = .ok (⟨t, req, payload⟩, extra) ∧
    (∀ m : XsMessage, 4096 < m.payload.length → write_to m = .error .invalidData) := by
  refine ⟨read_from_frame t tag req len payload extra htag htag32 hreq hlen32 hplen, ?_, ?_⟩
  · rw [read_message_async_eq]
    exact read_from_frame t tag req len payload extra htag htag32 hreq hlen32 hplen
  · intro m hm
    simp [write_to, XENSTORE_PAYLOAD_MAX, hm]

/-- C10 witness: a Read frame with a 4097-byte payload decodes
successfully, while encoding any message with that payload fails. -/
theorem c10_witness :
    read_from (u32Bytes 2 ++ (u32Bytes 9 ++ (u32Bytes 0 ++ (u32Bytes 4097
        ++ (List.replicate 4097 7 ++ [])))))
      = .ok (⟨.Read, 9, List.replicate 4097 7⟩, []) ∧
    write_to ⟨.Read, 9, List.replicate 4097 7⟩ = .error .invalidData := by
  have h := c10_decode_ignores_payload_limit .Read 2 9 4097 (List.replicate 4097 7) []
    (by decide) (by norm_num) (by norm_num) (by norm_num)
    (by simp only [List.length_replicate]) (by norm_num)
  refine ⟨h.1, h.2.2 ⟨.Read, 9, List.replicate 4097 7⟩ ?_⟩
  simp only [List.length_replicate]
  norm_num

/-- C1 (failing-input evidence): the encoder writes the positional enum
discriminant (`msg_type as u32`), so a `ResetWatches` message goes on
the wire with tag 20, which the decoder rejects as unknown, and a
`DirectoryPart` message goes out with tag 21, which decodes as
`ResetWatches`; the encode/decode round trip fails for these two kinds. -/
theorem c1_roundtrip_breaks_on_reset_watches :
    (write_to ⟨.ResetWatches, 0, []⟩).bind read_from = .error .unsupported ∧
    (write_to ⟨.DirectoryPart, 0, []⟩).bind read_from = .ok (⟨.ResetWatches, 0, []⟩, []) ∧
    (⟨.ResetWatches, 0, []⟩ : XsMessage) ≠ ⟨.DirectoryPart, 0, []⟩ ∧
    msgTypeCast .ResetWatches = 20 ∧ msgTypeIntoU32 .ResetWatches = 21 ∧
    msgTypeOfU32 20 = none ∧ msgTypeOfU32 21 = some .ResetWatches := by
  decide

/-! ## String-list parsing lemmas (for the §8 string-list property) -/

theorem parse_nul_string_append_nul (s : Bytes) (hv : isValidUtf8 s = true) :
    parse_nul_string (s ++ [0]) = .ok (some s) := by
  unfold parse_nul_string
  rw [if_neg (by simp)]
  rw [List.getLast?_concat]
  simp [List.dropLast_concat, hv]

theorem parse_nul_string_no_nul (s : Bytes) (hne : s ≠ []) (h0 : 0 ∉ s)
    (hv : isValidUtf8 s = true) : parse_nul_string s = .ok (some s) := by
  have hlast : s.getLast? ≠ some 0 := by
    rcases List.eq_nil_or_concat s with h | ⟨L, b, rfl⟩
    · exact absurd h hne
    · simp only [List.concat_eq_append] at h0 ⊢
      rw [List.getLast?_concat]
      intro hb
      exact h0 (by simp only [Option.some.injEq] at hb; simp [hb])
  unfold parse_nul_string
  rw [if_neg (by simp [hne])]
  rw [if_neg hlast, if_pos hv]

theorem splitAfterNul_append_nul (s rest : Bytes) (h0 : 0 ∉ s) :
    splitAfterNul (s ++ 0 :: rest) = (s ++ [0]) :: splitAfterNul rest := by
  induction s with
  | nil => simp [splitAfterNul]
  | cons x s ih =>
    have hx : ¬ x = 0 := fun h => h0 (by simp [h])
    have h0' : 0 ∉ s := fun h => h0 (List.mem_cons_of_mem _ h)
    simp only [List.cons_append, splitAfterNul, List.append_eq, if_neg hx, ih h0']

theorem splitAfterNul_no_nul (s : Bytes) (hne : s ≠ []) (h0 : 0 ∉ s) :
    splitAfterNul s = [s] := by
  induction s with
  | nil => exact absurd rfl hne
  | cons x s ih =>
    have hx : ¬ x = 0 := fun h => h0 (by simp [h])
    have h0' : 0 ∉ s := fun h => h0 (List.mem_cons_of_mem _ h)
    cases s with
    | nil => simp [splitAfterNul, hx]
    | cons y t =>
      have hs := ih (by simp) h0'
      simp only [splitAfterNul, if_neg hx] at hs ⊢
      rw [hs]

theorem splitAfterNul_concatNul (ss : List Bytes) (h0 : ∀ s ∈ ss, 0 ∉ s) :
    splitAfterNul (concatNul ss) = ss.map (· ++ [0]) := by
  induction ss with
  | nil => rfl
  | cons s ss ih =>
    have : concatNul (s :: ss) = s ++ 0 :: concatNul ss := by
      simp [concatNul, List.append_assoc]
    rw [this, splitAfterNul_append_nul s _ (h0 s (by simp))]
    rw [ih (fun x hx => h0 x (List.mem_cons_of_mem _ hx))]
    simp [List.map_cons]

theorem splitAfterNul_concatNul_tail (ss : List Bytes) (tail : Bytes)
    (h0 : ∀ s ∈ ss, 0 ∉ s) (htne : tail ≠ []) (ht0 : 0 ∉ tail) :
    splitAfterNul (concatNul ss ++ tail) = ss.map (· ++ [0]) ++ [tail] := by
  induction ss with
  | nil => simpa [concatNul] using splitAfterNul_no_nul tail htne ht0
  | cons s ss ih =>
    have : concatNul (s :: ss) ++ tail = s ++ 0 :: (concatNul ss ++ tail) := by
      simp [concatNul, List.append_assoc]
    rw [this, splitAfterNul_append_nul s _ (h0 s (by simp))]
    rw [ih (fun x hx => h0 x (List.mem_cons_of_mem _ hx))]
    simp [List.map_cons]

theorem collectChunks_map (ss : List Bytes) (hv : ∀ s ∈ ss, isValidUtf8 s = true) :
    collectChunks (ss.map (· ++ [0])) = .ok ss := by
  induction ss with
  | nil => rfl
  | cons s ss ih =>
    simp only [List.map_cons, collectChunks,
      parse_nul_string_append_nul s (hv s (by simp)),
      ih (fun x hx => hv x (List.mem_cons_of_mem _ hx))]
    rfl

theorem collectChunks_map_tail (ss : List Bytes) (tail : Bytes)
    (hv : ∀ s ∈ ss, isValidUtf8 s = true) (htne : tail ≠ []) (ht0 : 0 ∉ tail)
    (htv : isValidUtf8 tail = true) :
    collectChunks (ss.map (· ++ [0]) ++ [tail]) = .ok (ss ++ [tail]) := by
  induction ss with
  | nil =>
    simp only [List.map_nil, List.nil_append, collectChunks,
      parse_nul_string_no_nul tail htne ht0 htv]
    rfl
  | cons s ss ih =>
    simp only [List.map_cons, List.cons_append, collectChunks, List.append_eq,
      parse_nul_string_append_nul s (hv s (by simp)),
      ih (fun x hx => hv x (List.mem_cons_of_mem _ hx))]
    rfl

theorem concatNul_dropLast (ss : List Bytes) (hne : ss ≠ []) :
    (concatNul ss).dropLast = concatNul ss.dropLast ++ ss.getLast hne := by
  conv_lhs => rw [← List.dropLast_append_getLast hne]
  have : concatNul (ss.dropLast ++ [ss.getLast hne])
      = (concatNul ss.dropLast ++ ss.getLast hne) ++ [0] := by
    simp [concatNul, List.append_assoc]
  rw [this, List.dropLast_concat]

/-- C4, amended: parsing the payload built from a list of NUL-free UTF-8
strings with a NUL terminator after each element returns the original
list; and, provided the LAST string of the list is non-empty, the
payload with the final NUL omitted parses to the same list.  (For a list
ending in the empty string the final NUL is load-bearing: omitting it
drops that element.) -/
theorem c4_string_list_roundtrip :
    (∀ (t : XsMessageType) (rid : Nat) (ss : List Bytes),
      (∀ s ∈ ss, 0 ∉ s ∧ isValidUtf8 s = true) →
      parse_payload_list ⟨t, rid, concatNul ss⟩ = .ok ss) ∧
    (∀ (t : XsMessageType) (rid : Nat) (ss : List Bytes) (hne : ss ≠ []),
      (∀ s ∈ ss, 0 ∉ s ∧ isValidUtf8 s = true) →
      ss.getLast hne ≠ [] →
      parse_payload_list ⟨t, rid, (concatNul ss).dropLast⟩ = .ok ss) := by
  constructor
  · intro t rid ss h
    unfold parse_payload_list
    rw [show (⟨t, rid, concatNul ss⟩ : XsMessage).payload = concatNul ss from rfl]
    rw [splitAfterNul_concatNul ss (fun s hs => (h s hs).1)]
    exact collectChunks_map ss (fun s hs => (h s hs).2)
  · intro t rid ss hne h hlast
    have hmem := List.getLast_mem hne
    unfold parse_payload_list
    rw [show (⟨t, rid, (concatNul ss).dropLast⟩ : XsMessage).payload
        = (concatNul ss).dropLast from rfl]
    rw [concatNul_dropLast ss hne]
    rw [splitAfterNul_concatNul_tail ss.dropLast (ss.getLast hne)
      (fun s hs => (h s (List.dropLast_subset _ hs)).1) hlast ((h _ hmem).1)]
    rw [collectChunks_map_tail ss.dropLast (ss.getLast hne)
      (fun s hs => (h s (List.dropLast_subset _ hs)).2) hlast ((h _ hmem).1)
      ((h _ hmem).2)]
    rw [List.dropLast_append_getLast hne]

/-- C4 witness: the two-element list ["a", "b"] round-trips through both
encodings. -/
theorem c4_string_list_witness :
    parse_payload_list ⟨.Directory, 0, concatNul [ascii "a", ascii "b"]⟩
      = .ok [ascii "a", ascii "b"] ∧
    parse_payload_list ⟨.Directory, 0, (concatNul [ascii "a", ascii "b"]).dropLast⟩
      = .ok [ascii "a", ascii "b"] :=
  ⟨c4_string_list_roundtrip.1 .Directory 0 [ascii "a", ascii "b"] (by decide),
   c4_string_list_roundtrip.2 .Directory 0 [ascii "a", ascii "b"] (by decide)
     (by decide) (by decide)⟩

/-- C4 counterexample: the claim as stated fails for the non-empty list
[""] of NUL-free UTF-8 strings.  Its NUL-terminated payload is `[0]`,
which parses back to [""], but the payload with the trailing NUL
omitted is empty and parses to the empty list — not the same list. -/
theorem c4_counterexample :
    ([[]] : List Bytes) ≠ [] ∧
    (∀ s ∈ ([[]] : List Bytes), 0 ∉ s ∧ isValidUtf8 s = true) ∧
    concatNul [[]] = [0] ∧ (concatNul [[]]).dropLast = [] ∧
    parse_payload_list ⟨.Directory, 0, [0]⟩ = .ok [[]] ∧
    parse_payload_list ⟨.Directory, 0, []⟩ = .ok [] ∧
    (Except.ok [] : Except Unit (List Bytes)) ≠ .ok [[]] := by
  decide

/-! ## Error-mapping table (spec §4.1) -/

/-- The source's match table agrees with the §4.1 table at every string. -/
theorem parseErrorKindTable_eq_spec (s : Bytes) : parseErrorKindTable s = specErrorKind s := by
  by_cases h1 : s = ascii "EINVAL"
  · subst h1; decide
  by_cases h2 : s = ascii "EACCES"
  · subst h2; decide
  by_cases h3 : s = ascii "EEXIST"
  · subst h3; decide
  by_cases h4 : s = ascii "EISDIR"
  · subst h4; decide
  by_cases h5 : s = ascii "ENOENT"
  · subst h5; decide
  by_cases h6 : s = ascii "ENOMEM"
  · subst h6; decide
  by_cases h7 : s = ascii "ENOSPC"
  · subst h7; decide
  by_cases h8 : s = ascii "EIO"
  · subst h8; decide
  by_cases h9 : s = ascii "ENOTEMPTY"
  · subst h9; decide
  by_cases h10 : s = ascii "ENOSYS"
  · subst h10; decide
  by_cases h11 : s = ascii "EROFS"
  · subst h11; decide
  by_cases h12 : s = ascii "EBUSY"
  · subst h12; decide
  by_cases h13 : s = ascii "EAGAIN"
  · subst h13; decide
  by_cases h14 : s = ascii "EISCONN"
  · subst h14; decide
  by_cases h15 : s = ascii "E2BIG"
  · subst h15; decide
  by_cases h16 : s = ascii "EPERM"
  · subst h16; decide
  simp only [parseErrorKindTable, specErrorKind, h1, h2, h3, h4, h5, h6, h7, h8, h9, h10,
    h11, h12, h13, h14, h15, h16, if_false, or_self, or_false, false_or, ite_false]

/-- C3: on an `Error`-kind message whose payload is one NUL-terminated
string, `parse_error` returns exactly the kind the §4.1 table assigns
(EIO and every unlisted string giving `other`), and the returned error
message contains the original wire string. -/
theorem c3_error_mapping (rid : Nat) (s : Bytes) (hv : isValidUtf8 s = true) :
    (parse_error ⟨.Error, rid, s ++ [0]⟩).1 = specErrorKind s ∧
    ∃ l r, (parse_error ⟨.Error, rid, s ++ [0]⟩).2 = l ++ s ++ r := by
  have hp : parse_nul_string (s ++ [0]) = .ok (some s) := parse_nul_string_append_nul s hv
  have hpe : parse_error ⟨.Error, rid, s ++ [0]⟩
      = (parseErrorKindTable s, ascii "XS interface error " ++ s) := by
    unfold parse_error
    rw [show (⟨.Error, rid, s ++ [0]⟩ : XsMessage).payload = s ++ [0] from rfl, hp]
  rw [hpe, parseErrorKindTable_eq_spec]
  exact ⟨rfl, ascii "XS interface error ", [], by simp⟩

/-- C3 witness at the wire string `EROFS`. -/
theorem c3_error_mapping_witness :
    (parse_error ⟨.Error, 0, ascii "EROFS" ++ [0]⟩).1 = specErrorKind (ascii "EROFS") ∧
    ∃ l r, (parse_error ⟨.Error, 0, ascii "EROFS" ++ [0]⟩).2 = l ++ ascii "EROFS" ++ r :=
  c3_error_mapping 0 (ascii "EROFS") (by decide)

/-! ## Client-handle response dispatch (C5) -/

/-- C5: for each client operation (`directory`, `read`, `write`, `rm`),
when the multiplexer delivers a response: a response of the request's
own kind makes the operation succeed with the parsed payload; an
`Error`-kind response fails with the daemon error translated by
`parse_error` (the §4.1 table); any other kind fails with an
invalid-data error. -/
theorem c5_kind_validation (resp : XsMessage) :
    (resp.msg_type = .Directory →
       ∀ l, parse_payload_list resp = .ok l → directory_op resp = .ok l) ∧
    (resp.msg_type = .Read → ∀ s, parse_payload_str resp = .ok (some s) → read_op resp = .ok s) ∧
    (resp.msg_type = .Read → parse_payload_str resp = .ok none → read_op resp = .ok []) ∧
    (resp.msg_type = .Write → write_op resp = .ok ()) ∧
    (resp.msg_type = .Rm → rm_op resp = .ok ()) ∧
    (resp.msg_type = .Error →
       directory_op resp = .error (parse_error resp) ∧
       read_op resp = .error (parse_error resp) ∧
       write_op resp = .error (parse_error resp) ∧
       rm_op resp = .error (parse_error resp)) ∧
    (resp.msg_type ≠ .Directory → resp.msg_type ≠ .Error →
       ∃ msg, directory_op resp = .error (.invalidData, msg)) ∧
    (resp.msg_type ≠ .Read → resp.msg_type ≠ .Error →
       ∃ msg, read_op resp = .error (.invalidData, msg)) ∧
    (resp.msg_type ≠ .Write → resp.msg_type ≠ .Error →
       ∃ msg, write_op resp = .error (.invalidData, msg)) ∧
    (resp.msg_type ≠ .Rm → resp.msg_type ≠ .Error →
       ∃ msg, rm_op resp = .error (.invalidData, msg)) := by
  refine ⟨?_, ?_, ?_, ?_, ?_, ?_, ?_, ?_, ?_, ?_⟩
  · intro h l hl
    simp [directory_op, transmit_dispatch, h, hl]
  · intro h s hs
    simp [read_op, transmit_dispatch, h, hs]
  · intro h hs
    simp [read_op, transmit_dispatch, h, hs]
  · intro h
    simp [write_op, transmit_dispatch, h]
  · intro h
    simp [rm_op, transmit_dispatch, h]
  · intro h
    refine ⟨?_, ?_, ?_, ?_⟩ <;>
      simp [directory_op, read_op, write_op, rm_op, transmit_dispatch, h]
  · intro h he
    exact ⟨ascii "Got unrelated response", by simp [directory_op, transmit_dispatch, h, he]⟩
  · intro h he
    exact ⟨ascii "Got unrelated response", by simp [read_op, transmit_dispatch, h, he]⟩
  · intro h he
    exact ⟨ascii "Got unrelated response", by simp [write_op, transmit_dispatch, h, he]⟩
  · intro h he
    exact ⟨ascii "Got unrelated response", by simp [rm_op, transmit_dispatch, h, he]⟩

/-- C5 witness: a Directory response parses to its list, an Error
response to `read` surfaces the daemon error, and a Watch-kind response
to `write` is invalid-data. -/
theorem c5_kind_validation_witness :
    directory_op ⟨.Directory, 0, ascii "a" ++ [0]⟩ = .ok [ascii "a"] ∧
    read_op ⟨.Error, 0, ascii "ENOENT" ++ [0]⟩
      = .error (parse_error ⟨.Error, 0, ascii "ENOENT" ++ [0]⟩) ∧
    (∃ msg, write_op ⟨.Watch, 0, []⟩ = .error (.invalidData, msg)) :=
  ⟨(c5_kind_validation ⟨.Directory, 0, ascii "a" ++ [0]⟩).1 rfl [ascii "a"] (by decide),
   ((c5_kind_validation ⟨.Error, 0, ascii "ENOENT" ++ [0]⟩).2.2.2.2.2.1 rfl).2.1,
   (c5_kind_validation ⟨.Watch, 0, []⟩).2.2.2.2.2.2.2.2.1 (by decide) (by decide)⟩

/-! ## Multiplexer slot-table lemmas -/

theorem countOccupied_set_some (l : List (Option XsTokioTask)) (i : Nat) (t : XsTokioTask)
    (h : l.get? i = some none) :
    countOccupied (l.set i (some t)) = countOccupied l + 1 := by
  induction l generalizing i with
  | nil => simp at h
  | cons x l ih =>
    cases i with
    | zero =>
      simp only [List.get?] at h
      cases h
      simp [countOccupied, List.countP_cons]
    | succ i =>
      simp only [List.get?] at h
      have := ih i h
      simp only [List.set, countOccupied, List.countP_cons] at this ⊢
      omega

theorem countOccupied_set_none (l : List (Option XsTokioTask)) (i : Nat) (t : XsTokioTask)
    (h : l.get? i = some (some t)) :
    countOccupied (l.set i none) + 1 = countOccupied l := by
  induction l generalizing i with
  | nil => simp at h
  | cons x l ih =>
    cases i with
    | zero =>
      simp only [List.get?] at h
      cases h
      simp [countOccupied, List.countP_cons]
    | succ i =>
      simp only [List.get?] at h
      have := ih i h
      simp only [List.set, countOccupied, List.countP_cons] at this ⊢
      omega

theorem countOccupied_pos (l : List (Option XsTokioTask)) (i : Nat) (t : XsTokioTask)
    (h : l.get? i = some (some t)) : 0 < countOccupied l := by
  induction l generalizing i with
  | nil => simp at h
  | cons x l ih =>
    cases i with
    | zero =>
      simp only [List.get?] at h
      cases h
      simp [countOccupied, List.countP_cons]
    | succ i =>
      have := ih i (by simpa using h)
      simp only [countOccupied, List.countP_cons] at this ⊢
      omega

theorem countOccupied_le_length (l : List (Option XsTokioTask)) :
    countOccupied l ≤ l.length :=
  List.countP_le_length _

theorem findFreeSlot_spec (l : List (Option XsTokioTask)) (i : Nat)
    (h : findFreeSlot l = some i) : l.get? i = some none := by
  induction l generalizing i with
  | nil => simp [findFreeSlot] at h
  | cons x l ih =>
    cases x with
    | none =>
      simp only [findFreeSlot] at h
      cases h
      rfl
    | some t =>
      simp only [findFreeSlot, Option.map_eq_some'] at h
      obtain ⟨j, hj, rfl⟩ := h
      simpa using ih j hj

theorem findFreeSlot_isSome (l : List (Option XsTokioTask))
    (h : countOccupied l < l.length) : findFreeSlot l ≠ none := by
  induction l with
  | nil => simp at h
  | cons x l ih =>
    cases x with
    | none => simp [findFreeSlot]
    | some t =>
      simp only [countOccupied, List.countP_cons, List.length_cons, Option.isSome_some,
        if_true] at h
      have : countOccupied l < l.length := by
        simp only [countOccupied]
        omega
      simp only [findFreeSlot, Ne, Option.map_eq_none']
      exact ih this

/-- Shape of a successful `process_message`: one previously free slot is
filled, the counter is incremented, the watch table is untouched, and
every sent wire message carries the slot index as its request id. -/
theorem processMessage_ok_spec (s : XsTokioState) (m : XsTokioMessage)
    (s' : XsTokioState) (out : List XsMessage)
    (h : processMessage s m = .ok (s', out)) :
    ∃ i t, findFreeSlot s.pending_tasks = some i ∧
      s.pending_tasks.get? i = some none ∧
      s'.pending_tasks = s.pending_tasks.set i (some t) ∧
      s'.task_count = s.task_count + 1 ∧
      s'.watch_subscribers = s.watch_subscribers ∧
      ∀ w ∈ out, w.request_id = i := by
  unfold processMessage at h
  split at h
  · exact absurd h (by simp)
  rename_i i hf
  have hfree := findFreeSlot_spec _ _ hf
  split at h
  · rename_i request sender
    simp only [Except.ok.injEq, Prod.mk.injEq] at h
    obtain ⟨h1, h2⟩ := h
    subst h1; subst h2
    refine ⟨i, .Request sender, hf, hfree, rfl, rfl, rfl, ?_⟩
    intro w hw
    simp only [List.mem_singleton] at hw
    subst hw
    rfl
  · rename_i path sink rc gen
    split at h
    · exact absurd h (by simp)
    rename_i token ht
    simp only [Except.ok.injEq, Prod.mk.injEq] at h
    obtain ⟨h1, h2⟩ := h
    subst h1; subst h2
    refine ⟨i, .WatchSubscribe ⟨sink, path⟩ rc token, hf, hfree, rfl, rfl, rfl, ?_⟩
    intro w hw
    simp only [List.mem_singleton] at hw
    subst hw
    rfl
  · rename_i token
    split at h
    · exact absurd h (by simp)
    rename_i info hg
    simp only [Except.ok.injEq, Prod.mk.injEq] at h
    obtain ⟨h1, h2⟩ := h
    subst h1; subst h2
    refine ⟨i, .WatchUnsubscribe token, hf, hfree, rfl, rfl, rfl, ?_⟩
    intro w hw
    simp only [List.mem_singleton] at hw
    subst hw
    rfl

/-- `process_watch_entry` never touches the slot table or the counter. -/
theorem processWatchEntry_frame (alive : Nat → Bool) (s : XsTokioState) (msg : XsMessage) :
    (processWatchEntry alive s msg).1.pending_tasks = s.pending_tasks ∧
    (processWatchEntry alive s msg).1.task_count = s.task_count := by
  unfold processWatchEntry
  repeat' split
  all_goals exact ⟨rfl, rfl⟩

/-- Shape of `process_response` on a solicited response whose slot is
occupied: the slot is emptied and the counter decremented (the watch
table varies with the parked task). -/
theorem processResponse_take (alive : Nat → Bool) (s : XsTokioState) (r : XsMessage)
    (task : XsTokioTask)
    (hty : r.msg_type ≠ .WatchEvent)
    (hslot : s.pending_tasks.get? r.request_id = some (some task)) :
    ∃ ws, (processResponse alive s r).1 =
      { pending_tasks := s.pending_tasks.set r.request_id none,
        watch_subscribers := ws, task_count := s.task_count - 1 } := by
  unfold processResponse
  rw [if_neg hty, hslot]
  cases task with
  | Request sender => exact ⟨s.watch_subscribers, rfl⟩
  | WatchSubscribe info rc token =>
    obtain ⟨mt, rid, pl⟩ := r
    cases mt <;> first
      | exact ⟨s.watch_subscribers, rfl⟩
      | exact ⟨hmInsert s.watch_subscribers token info, rfl⟩
  | WatchUnsubscribe token =>
    obtain ⟨mt, rid, pl⟩ := r
    cases mt <;> first
      | exact ⟨s.watch_subscribers, rfl⟩
      | exact ⟨hmRemove s.watch_subscribers token, rfl⟩

/-- `process_response` on a solicited response with an invalid or empty
slot leaves the state unchanged (and reports an error). -/
theorem processResponse_no_task (alive : Nat → Bool) (s : XsTokioState) (r : XsMessage)
    (hty : r.msg_type ≠ .WatchEvent)
    (hslot : s.pending_tasks.get? r.request_id = none ∨
             s.pending_tasks.get? r.request_id = some none) :
    (processResponse alive s r).1 = s := by
  unfold processResponse
  rw [if_neg hty]
  rcases hslot with h | h <;> rw [h]

/-- The multiplexer's basic slot invariant. -/
def Inv (s : XsTokioState) : Prop :=
  s.pending_tasks.length = MAX_REQUEST_COUNT ∧
  s.task_count = countOccupied s.pending_tasks

theorem inv_init : Inv initState := by
  constructor <;> decide

theorem inv_message (s : XsTokioState) (m : XsTokioMessage) (s' : XsTokioState)
    (out : List XsMessage) (hinv : Inv s) (h : processMessage s m = .ok (s', out)) :
    Inv s' := by
  obtain ⟨i, t, hf, hfree, hpend, hcount, hws, hout⟩ := processMessage_ok_spec s m s' out h
  constructor
  · rw [hpend, List.length_set]
    exact hinv.1
  · rw [hpend, hcount, countOccupied_set_some _ _ _ hfree, hinv.2]

theorem inv_response (alive : Nat → Bool) (s : XsTokioState) (r : XsMessage)
    (hinv : Inv s) : Inv (processResponse alive s r).1 := by
  by_cases hty : r.msg_type = .WatchEvent
  · have hfr : (processResponse alive s r).1 = (processWatchEntry alive s r).1 := by
      unfold processResponse
      rw [if_pos hty]
    rw [hfr]
    obtain ⟨h1, h2⟩ := processWatchEntry_frame alive s r
    exact ⟨by rw [h1]; exact hinv.1, by rw [h1, h2]; exact hinv.2⟩
  · cases hslot : s.pending_tasks.get? r.request_id with
    | none => rw [processResponse_no_task alive s r hty (Or.inl hslot)]; exact hinv
    | some o =>
      cases o with
      | none => rw [processResponse_no_task alive s r hty (Or.inr hslot)]; exact hinv
      | some task =>
        obtain ⟨ws, hshape⟩ := processResponse_take alive s r task hty hslot
        rw [hshape]
        have hocc := countOccupied_set_none _ _ _ hslot
        refine ⟨by rw [List.length_set]; exact hinv.1, ?_⟩
        show s.task_count - 1 = countOccupied (s.pending_tasks.set r.request_id none)
        have hpos := countOccupied_pos _ _ _ hslot
        have h2 := hinv.2
        omega

theorem inv_reachable (s : XsTokioState) (h : Reachable s) : Inv s := by
  induction h with
  | init => exact inv_init
  | message s m s' out hr hm ih => exact inv_message s m s' out ih hm
  | response alive s r hr ih => exact inv_response alive s r ih

/-- C2: in every reachable multiplexer state, `task_count` equals the
number of occupied slots and both are at most 32; a command step parks
its task in a currently-free slot whose index becomes the request id of
every wire message it sends (so concurrently outstanding requests hold
distinct ids); a response for an occupied slot empties exactly that
slot and decrements the counter; and whenever the table is not full a
free slot is available to the next command. -/
theorem c2_slot_invariants (s : XsTokioState) (h : Reachable s) :
    (s.task_count = countOccupied s.pending_tasks ∧
     s.task_count ≤ MAX_REQUEST_COUNT ∧
     s.pending_tasks.length = MAX_REQUEST_COUNT) ∧
    (∀ m s' out, processMessage s m = .ok (s', out) →
      ∃ i t, s.pending_tasks.get? i = some none ∧
        s'.pending_tasks = s.pending_tasks.set i (some t) ∧
        s'.task_count = s.task_count + 1 ∧
        ∀ w ∈ out, w.request_id = i) ∧
    (∀ (alive : Nat → Bool) (r : XsMessage) (task : XsTokioTask),
      r.msg_type ≠ .WatchEvent →
      s.pending_tasks.get? r.request_id = some (some task) →
      (processResponse alive s r).1.pending_tasks.get? r.request_id = some none ∧
      (processResponse alive s r).1.task_count + 1 = s.task_count) ∧
    (s.task_count < MAX_REQUEST_COUNT → findFreeSlot s.pending_tasks ≠ none) := by
  have hinv := inv_reachable s h
  refine ⟨⟨hinv.2, ?_, hinv.1⟩, ?_, ?_, ?_⟩
  · rw [hinv.2, ← hinv.1]
    exact countOccupied_le_length _
  · intro m s' out hm
    obtain ⟨i, t, hf, hfree, hpend, hcount, hws, hout⟩ := processMessage_ok_spec s m s' out hm
    exact ⟨i, t, hfree, hpend, hcount, hout⟩
  · intro alive r task hty hslot
    obtain ⟨ws, hshape⟩ := processResponse_take alive s r task hty hslot
    constructor
    · rw [hshape]
      show (s.pending_tasks.set r.request_id none).get? r.request_id = some none
      rw [List.get?_set_eq, hslot]
      rfl
    · rw [hshape]
      show s.task_count - 1 + 1 = s.task_count
      have := countOccupied_pos _ _ _ hslot
      have h2 := hinv.2
      omega
  · intro hlt
    apply findFreeSlot_isSome
    rw [← hinv.2, hinv.1]
    exact hlt

/-- C2 witness: at the reachable one-request state, the invariant holds,
the next command takes the first free slot, and the response for slot 0
empties it. -/
theorem c2_slot_invariants_witness :
    ((reqState 1).task_count = countOccupied (reqState 1).pending_tasks ∧
     (reqState 1).task_count ≤ MAX_REQUEST_COUNT ∧
     (reqState 1).pending_tasks.length = MAX_REQUEST_COUNT) ∧
    ((processResponse (fun _ => true) (reqState 1) ⟨.Read, 0, []⟩).1.pending_tasks.get? 0
        = some none ∧
     (processResponse (fun _ => true) (reqState 1) ⟨.Read, 0, []⟩).1.task_count + 1
        = (reqState 1).task_count) ∧
    findFreeSlot (reqState 1).pending_tasks ≠ none := by
  have hreach : Reachable (reqState 1) := by
    have h0 : (reqState 0) = initState := by decide
    exact Reachable.message (reqState 0) reqCmd (reqState 1) [⟨.Read, 0, [0]⟩]
      (h0 ▸ Reachable.init) (by decide)
  have H := c2_slot_invariants (reqState 1) hreach
  exact ⟨H.1,
    H.2.2.1 (fun _ => true) ⟨.Read, 0, []⟩ (.Request 0) (by decide) (by decide),
    H.2.2.2 (by decide)⟩

/-! ## Backpressure (C7) -/

theorem processMessage_reqState :
    ∀ k, k < 32 → processMessage (reqState k) reqCmd
      = .ok (reqState (k + 1), [⟨.Read, k, [0]⟩]) := by
  decide

theorem reachable_reqState (k : Nat) (h : k ≤ 32) : Reachable (reqState k) := by
  induction k with
  | zero =>
    have h0 : reqState 0 = initState := by decide
    rw [h0]
    exact .init
  | succ n ih =>
    exact .message (reqState n) reqCmd (reqState (n + 1)) [⟨.Read, n, [0]⟩]
      (ih (by omega)) (processMessage_reqState n (by omega))

/-- C7, amended: in any reachable state with all 32 slots occupied, every
main-loop step is a response step — no command is consumed from the
command channel; a caller submitting meanwhile is NOT suspended: the
handle's `UnboundedSender::send` enqueues the command immediately and
returns, so the caller observes neither an error nor a locally failed
command, and its command merely waits unconsumed; once a response for an
occupied slot is processed the counter drops below 32 and the loop can
again consume a queued command. -/
theorem c7_backpressure (alive : Nat → Bool) (s : XsTokioState) (h : Reachable s)
    (hfull : s.task_count = MAX_REQUEST_COUNT) :
    (∀ (cmds : List XsTokioMessage) (resps : List XsMessage) (cfg' : MuxConfig),
       RunStep alive ⟨s, cmds, resps⟩ cfg' →
       cfg'.cmd_queue = cmds ∧
       ∃ r rs, resps = r :: rs ∧ cfg' = ⟨(processResponse alive s r).1, cmds, rs⟩) ∧
    (∀ q c, unboundedSend true q c = (q ++ [c], .queued) ∧
            (unboundedSend true q c).2 ≠ .suspended ∧
            (unboundedSend true q c).2 ≠ .failed) ∧
    (∀ (r : XsMessage) (task : XsTokioTask), r.msg_type ≠ .WatchEvent →
       s.pending_tasks.get? r.request_id = some (some task) →
       (processResponse alive s r).1.task_count < MAX_REQUEST_COUNT ∧
       ∀ (m : XsTokioMessage) (ms : List XsTokioMessage) (resps : List XsMessage),
         ∃ cfg', RunStep alive ⟨(processResponse alive s r).1, m :: ms, resps⟩ cfg' ∧
           cfg'.cmd_queue = ms) := by
  refine ⟨?_, ?_, ?_⟩
  · intro cmds resps cfg' hstep
    cases hstep with
    | response s1 r rs cmds1 => exact ⟨rfl, r, rs, rfl, rfl⟩
    | command s1 m ms resps1 s1' out hne hpm => exact absurd hfull hne
    | commandFail s1 m ms resps1 e hne hpm => exact absurd hfull hne
  · intro q c
    refine ⟨rfl, ?_, ?_⟩ <;> simp [unboundedSend]
  · intro r task hty hslot
    obtain ⟨ws, hshape⟩ := processResponse_take alive s r task hty hslot
    have hcnt : (processResponse alive s r).1.task_count = s.task_count - 1 := by rw [hshape]
    have hlt : (processResponse alive s r).1.task_count < MAX_REQUEST_COUNT := by
      rw [hcnt, hfull]
      decide
    refine ⟨hlt, ?_⟩
    intro m ms resps
    have hne : (processResponse alive s r).1.task_count ≠ MAX_REQUEST_COUNT :=
      Nat.ne_of_lt hlt
    cases hpm : processMessage (processResponse alive s r).1 m with
    | ok p =>
      exact ⟨⟨p.1, ms, resps⟩, RunStep.command _ m ms resps p.1 p.2 hne (by rw [hpm]), rfl⟩
    | error e =>
      exact ⟨⟨(processResponse alive s r).1, ms, resps⟩,
        RunStep.commandFail _ m ms resps e hne hpm, rfl⟩

/-- C7 witness: the full state reached by 32 plain requests. -/
theorem c7_backpressure_witness :
    unboundedSend true [] reqCmd = ([reqCmd], SubmitOutcome.queued) ∧
    (processResponse (fun _ => true) (reqState 32) ⟨.Read, 0, []⟩).1.task_count
      < MAX_REQUEST_COUNT := by
  have H := c7_backpressure (fun _ => true) (reqState 32)
    (reachable_reqState 32 (le_refl 32)) rfl
  exact ⟨(H.2.1 [] reqCmd).1,
    (H.2.2 ⟨.Read, 0, []⟩ (.Request 0) (by decide) (by decide)).1⟩

/-- C7 counterexample: the claim's "a caller submitting in that state is
suspended on the bounded command channel" is false.  At the reachable
full state (32 occupied slots), a submit through the client handle —
`mpsc::UnboundedSender::send`, a synchronous call with no `.await` —
enqueues the command and returns `queued` immediately; the caller is
never suspended (and sees no error).  The 32-full condition does not
change this: the handle's channel sender is unbounded. -/
theorem c7_counterexample :
    Reachable (reqState 32) ∧
    (reqState 32).task_count = MAX_REQUEST_COUNT ∧
    unboundedSend true [] reqCmd = ([reqCmd], SubmitOutcome.queued) ∧
    (unboundedSend true [] reqCmd).2 ≠ SubmitOutcome.suspended :=
  ⟨reachable_reqState 32 (le_refl 32), rfl, rfl, by decide⟩

/-! ## Unwatch-response handling (C6) -/

/-- C6, amended: when a response arrives for a slot parked as
`WatchUnsubscribe`: on `Unwatch` the token is removed from the watch
table and processing succeeds; on `Error` the handler returns the error
"Unwatch failure" — which the main loop merely logs — with the slot
freed and the token still in the table, and the loop continues taking
steps (it is not terminated). -/
theorem c6_unwatch_response (alive : Nat → Bool) (s : XsTokioState) (t : Uuid)
    (r : XsMessage)
    (hslot : s.pending_tasks.get? r.request_id = some (some (.WatchUnsubscribe t))) :
    (r.msg_type = .Unwatch →
       (processResponse alive s r).1.watch_subscribers = hmRemove s.watch_subscribers t ∧
       (processResponse alive s r).2.2 = .ok ()) ∧
    (r.msg_type = .Error →
       (processResponse alive s r).2.2 = .error "Unwatch failure" ∧
       (processResponse alive s r).1.watch_subscribers = s.watch_subscribers ∧
       (processResponse alive s r).1.pending_tasks.get? r.request_id = some none ∧
       (∀ cmds rs, RunStep alive ⟨s, cmds, r :: rs⟩
          ⟨(processResponse alive s r).1, cmds, rs⟩) ∧
       (∀ cmds (r' : XsMessage) rs', RunStep alive
          ⟨(processResponse alive s r).1, cmds, r' :: rs'⟩
          ⟨(processResponse alive ((processResponse alive s r).1) r').1, cmds, rs'⟩)) := by
  obtain ⟨mt, rid, pl⟩ := r
  simp only at hslot
  constructor
  · intro hmt
    simp only at hmt
    subst hmt
    unfold processResponse
    rw [if_neg (by simp), hslot]
    exact ⟨rfl, rfl⟩
  · intro hmt
    simp only at hmt
    subst hmt
    refine ⟨?_, ?_, ?_, ?_, ?_⟩
    · unfold processResponse
      rw [if_neg (by simp), hslot]
    · unfold processResponse
      rw [if_neg (by simp), hslot]
    · have hshape := processResponse_take alive s ⟨.Error, rid, pl⟩ (.WatchUnsubscribe t)
        (by simp) hslot
      obtain ⟨ws, hs⟩ := hshape
      rw [hs]
      show (s.pending_tasks.set rid none).get? rid = some none
      rw [List.get?_set_eq, hslot]
      rfl
    · intro cmds rs
      exact RunStep.response s ⟨.Error, rid, pl⟩ rs cmds
    · intro cmds r' rs'
      exact RunStep.response _ r' rs' cmds

/-- C6 witness: the parked unsubscribe in `c6S3` processed with an
`Unwatch`-kind response removes the token, and with an `Error`-kind
response merely fails with "Unwatch failure". -/
theorem c6_unwatch_response_witness :
    ((processResponse (fun _ => true) c6S3 ⟨.Unwatch, 0, []⟩).1.watch_subscribers
        = hmRemove c6S3.watch_subscribers 5 ∧
     (processResponse (fun _ => true) c6S3 ⟨.Unwatch, 0, []⟩).2.2 = .ok ()) ∧
    (processResponse (fun _ => true) c6S3 c6Err).2.2 = .error "Unwatch failure" := by
  have H1 := c6_unwatch_response (fun _ => true) c6S3 5 ⟨.Unwatch, 0, []⟩ (by decide)
  have H2 := c6_unwatch_response (fun _ => true) c6S3 5 c6Err (by decide)
  exact ⟨H1.1 rfl, (H2.2 rfl).1⟩

/-- C6 counterexample: in the reachable state `c6S3` (slot 0 parked as
`WatchUnsubscribe` for token 5, token 5 confirmed in the watch table) an
`Error` response for slot 0 makes `process_response` fail with "Unwatch
failure", but the multiplexer is NOT poisoned: the main loop takes that
step, keeps the token in the table, continues to process a further
response, and even processes a further unsubscribe command — refuting
"its main loop terminates (no further commands or responses are
processed)". -/
theorem c6_counterexample :
    Reachable c6S3 ∧
    c6S3.pending_tasks.get? 0 = some (some (.WatchUnsubscribe 5)) ∧
    c6Err.msg_type = .Error ∧ c6Err.request_id = 0 ∧
    (processResponse (fun _ => true) c6S3 c6Err).2.2 = .error "Unwatch failure" ∧
    (processResponse (fun _ => true) c6S3 c6Err).1 = c6S4 ∧
    hmGet c6S4.watch_subscribers 5 = some ⟨9, c6Path⟩ ∧
    RunStep (fun _ => true) ⟨c6S3, [], [c6Err, c6R2]⟩ ⟨c6S4, [], [c6R2]⟩ ∧
    RunStep (fun _ => true) ⟨c6S4, [], [c6R2]⟩ ⟨c6S4, [], []⟩ ∧
    processMessage c6S4 (.WatchUnsubscribe 5)
      = .ok (c6S3, [from_string_slice .Unwatch 0 [c6Path, uuidToString 5]]) := by
  have r1 : Reachable c6S1 :=
    .message initState (.WatchSubscribe c6Path 9 7 [5]) c6S1
      [from_string_slice .Watch 0 [c6Path, uuidToString 5]] .init (by decide)
  have r2 : Reachable c6S4 := by
    have hr := Reachable.response (fun _ => true) c6S1 ⟨.Watch, 0, []⟩ r1
    rwa [show (processResponse (fun _ => true) c6S1 ⟨.Watch, 0, []⟩).1 = c6S4 from by decide]
      at hr
  have r3 : Reachable c6S3 :=
    .message c6S4 (.WatchUnsubscribe 5) c6S3
      [from_string_slice .Unwatch 0 [c6Path, uuidToString 5]] r2 (by decide)
  have hstep1 : RunStep (fun _ => true) ⟨c6S3, [], [c6Err, c6R2]⟩ ⟨c6S4, [], [c6R2]⟩ := by
    have hs := @RunStep.response (fun _ => true) c6S3 c6Err [c6R2] []
    rwa [show (processResponse (fun _ => true) c6S3 c6Err).1 = c6S4 from by decide] at hs
  have hstep2 : RunStep (fun _ => true) ⟨c6S4, [], [c6R2]⟩ ⟨c6S4, [], []⟩ := by
    have hs := @RunStep.response (fun _ => true) c6S4 c6R2 [] []
    rwa [show (processResponse (fun _ => true) c6S4 c6R2).1 = c6S4 from by decide] at hs
  exact ⟨r3, by decide, by decide, by decide, by decide, by decide, by decide,
    hstep1, hstep2, by decide⟩

/-! ## Watch-token allocation (C8) -/

/-- C8, amended: the token chosen by `find_suitable_token` is fresh with
respect to the watch table at the moment of choice (it never collides
with a confirmed subscriber).  Parked, not-yet-confirmed `WatchSubscribe`
tasks are not consulted, so concurrent pending subscriptions may share a
token and a confirmed insert may overwrite an entry (the source logs
"Overriden WATCH subscriber" in that case). -/
theorem c8_token_fresh_for_table (gen : List Uuid)
    (table : List (Uuid × WatchSubscriberInfo)) (t : Uuid)
    (h : find_suitable_token gen table = some t) : hmGet table t = none := by
  induction gen with
  | nil => simp [find_suitable_token] at h
  | cons u rest ih =>
    unfold find_suitable_token at h
    by_cases hu : hmGet table u = none
    · rw [if_pos hu] at h
      cases h
      exact hu
    · rw [if_neg hu] at h
      exact ih h

/-- C8 witness: the oracle's first draw is accepted against an empty
table. -/
theorem c8_token_fresh_witness : hmGet [] 3 = none :=
  c8_token_fresh_for_table [3] [] 3 (by decide)

/-- C8 counterexample: from the initial state, a first `WatchSubscribe`
(path `/a`) parks a task with token 11; while it is unconfirmed, a
second `WatchSubscribe` (path `/b`) draws the same token 11 and
`find_suitable_token` accepts it (the watch table is still empty) —
the chosen token does NOT differ from the parked task's token.  After
both confirmations the second insert overwrites the first subscriber:
the table ends with one entry, bound to the second record. -/
theorem c8_counterexample :
    Reachable c8S1 ∧
    c8S1.pending_tasks.get? 0 = some (some (.WatchSubscribe ⟨2, ascii "/a"⟩ 3 11)) ∧
    find_suitable_token [11] c8S1.watch_subscribers = some 11 ∧
    processMessage c8S1 (.WatchSubscribe (ascii "/b") 4 5 [11])
      = .ok (c8S2, [from_string_slice .Watch 1 [ascii "/b", uuidToString 11]]) ∧
    (processResponse (fun _ => true) c8S2 ⟨.Watch, 0, []⟩).1 = c8S3 ∧
    hmGet c8S3.watch_subscribers 11 = some ⟨2, ascii "/a"⟩ ∧
    (processResponse (fun _ => true) c8S3 ⟨.Watch, 1, []⟩).1 = c8S4 ∧
    hmGet c8S4.watch_subscribers 11 = some ⟨4, ascii "/b"⟩ ∧
    c8S4.watch_subscribers.length = 1 ∧
    (⟨4, ascii "/b"⟩ : WatchSubscriberInfo) ≠ ⟨2, ascii "/a"⟩ := by
  have r1 : Reachable c8S1 :=
    .message initState (.WatchSubscribe (ascii "/a") 2 3 [11]) c8S1
      [from_string_slice .Watch 0 [ascii "/a", uuidToString 11]] .init (by decide)
  exact ⟨r1, by decide, by decide, by decide, by decide, by decide, by decide, by decide,
    by decide, by decide⟩

/-! ## Watch drop and unsubscribe (C9) -/

theorem hmGet_hmInsert (m : List (Uuid × WatchSubscriberInfo)) (k : Uuid)
    (v : WatchSubscriberInfo) : hmGet (hmInsert m k v) k = some v := by
  unfold hmInsert
  by_cases h : m.any (fun p => p.1 == k)
  · rw [if_pos h]
    induction m with
    | nil => simp at h
    | cons p m ih =>
      by_cases hp : p.1 == k
      · unfold hmGet
        simp only [List.map_cons, if_pos hp, List.find?]
        rw [show (k == k) = true by simp]
        rfl
      · simp only [List.any_cons, hp, Bool.false_or] at h
        unfold hmGet
        simp only [List.map_cons, if_neg (by simp_all : ¬ p.1 == k), List.find?]
        rw [show (p.1 == k) = false by simp_all]
        exact ih h
  · rw [if_neg h]
    induction m with
    | nil =>
      unfold hmGet
      simp only [List.nil_append, List.find?]
      rw [show (k == k) = true by simp]
      rfl
    | cons p m ih =>
      simp only [List.any_cons, Bool.or_eq_true, not_or] at h
      unfold hmGet
      simp only [List.cons_append, List.find?]
      rw [show (p.1 == k) = false by simp_all]
      exact ih (by simp [h.2])

/-- C9: dropping a watch stream enqueues exactly one `WatchUnsubscribe`
command carrying the subscription's token (ignoring any send failure);
confirming the original `WatchSubscribe` stored the subscription's path
under that token in the watch table; and processing the unsubscribe
command sends one `Unwatch` wire message carrying exactly that path and
token. -/
theorem c9_watch_drop_unsubscribes (alive : Nat → Bool) (w : XsTokioWatch)
    (s : XsTokioState) (sink rc : Nat) (p : Bytes) (r : XsMessage)
    (hslot : s.pending_tasks.get? r.request_id
      = some (some (.WatchSubscribe ⟨sink, p⟩ rc w.token)))
    (hr : r.msg_type = .Watch)
    (s2 : XsTokioState) (hsub : hmGet s2.watch_subscribers w.token = some ⟨sink, p⟩)
    (i : Nat) (hfree : findFreeSlot s2.pending_tasks = some i) :
    dropWatch w = [.WatchUnsubscribe w.token] ∧
    hmGet (processResponse alive s r).1.watch_subscribers w.token = some ⟨sink, p⟩ ∧
    processMessage s2 (.WatchUnsubscribe w.token)
      = .ok ({ s2 with
                 pending_tasks := s2.pending_tasks.set i (some (.WatchUnsubscribe w.token)),
                 task_count := s2.task_count + 1 },
             [from_string_slice .Unwatch i [p, uuidToString w.token]]) := by
  refine ⟨rfl, ?_, ?_⟩
  · obtain ⟨mt, rid, pl⟩ := r
    simp only at hslot hr
    subst hr
    unfold processResponse
    rw [if_neg (by simp), hslot]
    exact hmGet_hmInsert _ _ _
  · unfold processMessage
    rw [hfree]
    show (match hmGet s2.watch_subscribers w.token with
      | none => (Except.error "Attempting unwatch without watch." :
          Except String (XsTokioState × List XsMessage))
      | some info =>
        Except.ok ({ s2 with
            pending_tasks := s2.pending_tasks.set i (some (.WatchUnsubscribe w.token)),
            task_count := s2.task_count + 1 },
          [from_string_slice .Unwatch i [info.path, uuidToString w.token]])) = _
    rw [hsub]

/-- C9 witness: a concrete confirmed subscription on path `/w` with
token 8, then dropped. -/
theorem c9_watch_drop_witness :
    dropWatch ⟨21, 8⟩ = [.WatchUnsubscribe 8] ∧
    hmGet (processResponse (fun _ => true)
        (⟨(List.replicate MAX_REQUEST_COUNT (none : Option XsTokioTask)).set 0
            (some (.WatchSubscribe ⟨12, ascii "/w"⟩ 13 8)), [], 1⟩ : XsTokioState)
        ⟨.Watch, 0, []⟩).1.watch_subscribers 8 = some ⟨12, ascii "/w"⟩ ∧
    processMessage (⟨List.replicate MAX_REQUEST_COUNT none, [(8, ⟨12, ascii "/w"⟩)], 0⟩ :
        XsTokioState) (.WatchUnsubscribe 8)
      = .ok (⟨(List.replicate MAX_REQUEST_COUNT (none : Option XsTokioTask)).set 0
                (some (.WatchUnsubscribe 8)), [(8, ⟨12, ascii "/w"⟩)], 1⟩,
             [from_string_slice .Unwatch 0 [ascii "/w", uuidToString 8]]) := by
  have H := c9_watch_drop_unsubscribes (fun _ => true) ⟨21, 8⟩
    (⟨(List.replicate MAX_REQUEST_COUNT (none : Option XsTokioTask)).set 0
        (some (.WatchSubscribe ⟨12, ascii "/w"⟩ 13 8)), [], 1⟩ : XsTokioState)
    12 13 (ascii "/w") ⟨.Watch, 0, []⟩ (by decide) (by decide)
    (⟨List.replicate MAX_REQUEST_COUNT none, [(8, ⟨12, ascii "/w"⟩)], 0⟩ : XsTokioState)
    (by decide) 0 (by decide)
  exact ⟨H.1, H.2.1, by
    have h3 := H.2.2
    convert h3 using 2⟩

end Xenstore
